import Mathlib

/-!
Verification of the context-bridge activity-capture and phase-inference
pipeline against its specification.  The definitions below are shallow
embeddings of the TypeScript sources: `ringBuffer.ts` (bounded event log),
`phaseDetection.ts` (rule-based phase classifier), `eventLog.ts`
(per-resource text-change debounce), `httpClient.ts` (JSON delivery), and
the `ContextBundle` wire shape from `types.ts`.  JavaScript numbers are
modelled as `Int` (all values involved are integral) except the classifier
confidence, which is a decimal and is modelled as `ℚ`.
-/

namespace CtxBridge

/-! ## RingBuffer (`ringBuffer.ts`)

The JS class owns `buffer: (T | undefined)[]`, `head`, `count` and a fixed
`capacity`.  Unwritten slots (`undefined`) are modelled as `none`; the
source's `this.buffer[idx] as T` non-null cast in `toArray` is rendered by
reading slots with `filterMap` (on every reachable state all read slots are
written, which the theorems below certify by pinning the exact output). -/

structure RingBuffer (T : Type) where
  buffer : List (Option T)
  head : Nat
  count : Nat
  capacity : Nat

/-- `new RingBuffer(capacity)`: `new Array(capacity)` of empty slots. -/
def RingBuffer.empty (T : Type) (capacity : Nat) : RingBuffer T :=
  { buffer := List.replicate capacity none, head := 0, count := 0, capacity := capacity }

/-- `push(item)`: write at `head`, advance `head` mod capacity, grow `count`
up to capacity. -/
def RingBuffer.push {T : Type} (b : RingBuffer T) (item : T) : RingBuffer T :=
  { b with
    buffer := b.buffer.set b.head (some item)
    head := (b.head + 1) % b.capacity
    count := if b.count < b.capacity then b.count + 1 else b.count }

/-- `toArray()`: oldest-first read starting at 0 (not yet full) or at `head`
(full), `count` many slots. -/
def RingBuffer.toArray {T : Type} (b : RingBuffer T) : List T :=
  if b.count = 0 then []
  else
    (List.range b.count).filterMap (fun i =>
      b.buffer.getD (((if b.count < b.capacity then 0 else b.head) + i) % b.capacity) none)

/-- `since(ms, now)`: `toArray().filter(item => item.timestamp >= now - ms)`;
`ts` reads the `timestamp` field. -/
def RingBuffer.since {T : Type} (b : RingBuffer T) (ts : T → Int) (ms now : Int) : List T :=
  b.toArray.filter (fun item => now - ms ≤ ts item)

/-- `clear()`: fresh slot array, cursor and count reset. -/
def RingBuffer.clear {T : Type} (b : RingBuffer T) : RingBuffer T :=
  { b with buffer := List.replicate b.capacity none, head := 0, count := 0 }

/-- `get size()`. -/
def RingBuffer.size {T : Type} (b : RingBuffer T) : Nat := b.count

/-- A whole sequence of `push` calls, first element pushed first. -/
def RingBuffer.pushAll {T : Type} (b : RingBuffer T) (xs : List T) : RingBuffer T :=
  xs.foldl RingBuffer.push b

/-! ## Event model (`types.ts`)

The `ActivityEvent` discriminated union, one constructor per `kind` tag.
Nullable fields (`string | null`, `number | undefined`) are `Option`s. -/

inductive ActivityEvent where
  | fileSwitch (timestamp : Int) (fromUri toUri toLanguageId : Option String)
  | fileSave (timestamp : Int) (uri languageId : String)
  | debugStart (timestamp : Int) (sessionName sessionType : String)
  | debugStop (timestamp : Int) (sessionName sessionType : String)
  | diagnosticChange (timestamp : Int) (uris : List String) (totalErrors totalWarnings : Int)
  | terminalCommandStart (timestamp : Int) (commandLine terminalName : String)
  | terminalCommandEnd (timestamp : Int) (commandLine terminalName : String)
      (exitCode : Option Int)
  | textChange (timestamp : Int) (uri : String) (changeCount : Int)
  | breakpointChange (timestamp : Int) (added removed changed : Int)
  deriving DecidableEq

/-- The `kind` discriminator string of an event. -/
def ActivityEvent.kind : ActivityEvent → String
  | .fileSwitch .. => "file_switch"
  | .fileSave .. => "file_save"
  | .debugStart .. => "debug_start"
  | .debugStop .. => "debug_stop"
  | .diagnosticChange .. => "diagnostic_change"
  | .terminalCommandStart .. => "terminal_command_start"
  | .terminalCommandEnd .. => "terminal_command_end"
  | .textChange .. => "text_change"
  | .breakpointChange .. => "breakpoint_change"

/-- The `commandLine` field of a terminal event (the classifier reads it
only on `terminal_command_start` events). -/
def ActivityEvent.commandLine : ActivityEvent → String
  | .terminalCommandStart _ cl _ => cl
  | .terminalCommandEnd _ cl _ _ => cl
  | _ => ""

/-! ## Command-pattern matching (`phaseDetection.ts` regexes)

Executable model of `regex.test` for the two patterns
`/\b(test|jest|mocha|pytest|cargo\s+test|npm\s+test|npm\s+run\s+test)\b/i`
and `/\bgit\s+(blame|log|diff|show|annotate)\b/i`: an alternative is a list
of literal words joined by one-or-more whitespace, the whole alternative
fenced by word boundaries, matched case-insensitively (the command strings
involved are ASCII, so lowercasing both sides models the `i` flag). -/

/-- JS `\w`: ASCII letter, digit or underscore. -/
def isWordChar (c : Char) : Bool := c.isAlpha || c.isDigit || c == '_'

/-- Consume a literal word at the head of the input. -/
def stripWord : List Char → List Char → Option (List Char)
  | [], s => some s
  | _ :: _, [] => none
  | c :: w, d :: s => if c = d then stripWord w s else none

/-- Consume `\s+`: at least one whitespace character, then greedily all
following whitespace (the next token always starts with a word character,
so greedy consumption is exact). -/
def stripSpaces1 : List Char → Option (List Char)
  | [] => none
  | c :: s => if c.isWhitespace then some (s.dropWhile Char.isWhitespace) else none

/-- Match one alternative (words joined by `\s+`) at the head of the input,
returning the remainder. -/
def matchWordsAlt : List (List Char) → List Char → Option (List Char)
  | [], s => some s
  | [w], s => stripWord w s
  | w :: ws, s =>
    match stripWord w s with
    | none => none
    | some r =>
      match stripSpaces1 r with
      | none => none
      | some r2 => matchWordsAlt ws r2

/-- Right word boundary: end of input or a non-word character. -/
def boundaryAfter : List Char → Bool
  | [] => true
  | c :: _ => !(isWordChar c)

/-- Left word boundary: start of input or a non-word character before. -/
def boundaryBefore : Option Char → Bool
  | none => true
  | some c => !(isWordChar c)

/-- Does some alternative match at this position, ending at a boundary? -/
def altMatchesAt (alt : List (List Char)) (s : List Char) : Bool :=
  match matchWordsAlt alt s with
  | some r => boundaryAfter r
  | none => false

/-- Scan every position of the input for a boundary-delimited match. -/
def scanMatch (alts : List (List (List Char))) : Option Char → List Char → Bool
  | prev, [] => boundaryBefore prev && alts.any (fun alt => altMatchesAt alt [])
  | prev, c :: rest =>
    (boundaryBefore prev && alts.any (fun alt => altMatchesAt alt (c :: rest))) ||
    scanMatch alts (some c) rest

/-- The test/build-command alternatives. -/
def testCmdAlts : List (List (List Char)) :=
  [[String.toList "test"], [String.toList "jest"], [String.toList "mocha"],
   [String.toList "pytest"],
   [String.toList "cargo", String.toList "test"],
   [String.toList "npm", String.toList "test"],
   [String.toList "npm", String.toList "run", String.toList "test"]]

/-- The git-history-command alternatives. -/
def gitHistoryAlts : List (List (List Char)) :=
  [[String.toList "git", String.toList "blame"],
   [String.toList "git", String.toList "log"],
   [String.toList "git", String.toList "diff"],
   [String.toList "git", String.toList "show"],
   [String.toList "git", String.toList "annotate"]]

/-- `/\b(test|jest|mocha|pytest|cargo\s+test|npm\s+test|npm\s+run\s+test)\b/i.test(s)`. -/
def isTestCommand (s : String) : Bool :=
  scanMatch testCmdAlts none (s.toList.map Char.toLower)

/-- `/\bgit\s+(blame|log|diff|show|annotate)\b/i.test(s)`. -/
def isGitHistoryCommand (s : String) : Bool :=
  scanMatch gitHistoryAlts none (s.toList.map Char.toLower)

/-! ## Phase classifier (`phaseDetection.ts`) -/

inductive WorkflowPhase where
  | exploring
  | iterating
  | building
  | debugging
  | archaeology
  | unknown
  deriving DecidableEq

/-- The result record of `detectPhase`.  `confidence` is the only
non-integral JS number in the pipeline and is modelled as `ℚ`. -/
structure PhaseAssessment where
  phase : WorkflowPhase
  confidence : ℚ
  reasoning : String
  recentFiles : List String
  deriving DecidableEq

/-- The `scores` record, fields in the declaration (= `Object.entries`)
order of the source literal. -/
structure Scores where
  exploring : Nat
  iterating : Nat
  building : Nat
  debugging : Nat
  archaeology : Nat
  unknown : Nat
  deriving DecidableEq

/-- JS `Set.prototype.add`: append iff absent (insertion order retained). -/
def setAdd (acc : List String) (x : String) : List String :=
  if x ∈ acc then acc else acc ++ [x]

/-- The `uniqueFiles` loop body over a `file_switch` event: add `fromUri`
if non-null, then `toUri` if non-null. -/
def addSwitchUris (acc : List String) (e : ActivityEvent) : List String :=
  match e with
  | .fileSwitch _ fromUri toUri _ =>
    let acc1 := match fromUri with
      | some u => setAdd acc u
      | none => acc
    match toUri with
    | some u => setAdd acc1 u
    | none => acc1
  | _ => acc

/-- The `uniqueFiles` loop body over a `text_change` event. -/
def addTextChangeUri (acc : List String) (e : ActivityEvent) : List String :=
  match e with
  | .textChange _ uri _ => setAdd acc uri
  | _ => acc

/-- The `uniqueFiles` set of `detectPhase` as the insertion-ordered list:
all `file_switch` endpoints first (event order), then all `text_change`
uris (event order). -/
def uniqueFilesOf (events : List ActivityEvent) : List String :=
  (events.filter (fun e => e.kind == "text_change")).foldl addTextChangeUri
    ((events.filter (fun e => e.kind == "file_switch")).foldl addSwitchUris [])

/-- The additive per-phase scoring rules of `detectPhase`. -/
def scoresOf (events : List ActivityEvent) : Scores :=
  let fileSwitches := (events.filter (fun e => e.kind == "file_switch")).length
  let textChanges := (events.filter (fun e => e.kind == "text_change")).length
  let saves := (events.filter (fun e => e.kind == "file_save")).length
  let debugStarts := (events.filter (fun e => e.kind == "debug_start")).length
  let debugStops := (events.filter (fun e => e.kind == "debug_stop")).length
  let terminalCmds := events.filter (fun e => e.kind == "terminal_command_start")
  let diagnosticChanges := (events.filter (fun e => e.kind == "diagnostic_change")).length
  let breakpointChanges := (events.filter (fun e => e.kind == "breakpoint_change")).length
  let uniqueFiles := (uniqueFilesOf events).length
  let testCommands := (terminalCmds.filter (fun e => isTestCommand e.commandLine)).length
  let gitHistoryCommands :=
    (terminalCmds.filter (fun e => isGitHistoryCommand e.commandLine)).length
  { exploring := (if 4 ≤ fileSwitches ∧ textChanges ≤ 1 then 3 else 0) +
      (if 3 ≤ uniqueFiles ∧ textChanges = 0 then 2 else 0)
    iterating := (if 2 ≤ textChanges ∧ 1 ≤ saves then 2 else 0) +
      (if 1 ≤ testCommands ∧ 1 ≤ textChanges then 3 else 0) +
      (if 2 ≤ diagnosticChanges then 1 else 0)
    building := (if 3 ≤ textChanges ∧ fileSwitches ≤ 2 then 3 else 0) +
      (if 2 ≤ saves ∧ 2 ≤ textChanges ∧ fileSwitches ≤ 1 then 2 else 0)
    debugging := (if debugStops < debugStarts then 4 else 0) +
      (if 1 ≤ breakpointChanges then 2 else 0) +
      (if 1 ≤ debugStarts then 1 else 0)
    archaeology := (if 1 ≤ gitHistoryCommands then 3 else 0) +
      (if 3 ≤ fileSwitches ∧ textChanges = 0 ∧ 1 ≤ gitHistoryCommands then 2 else 0)
    unknown := 0 }

/-- `Object.entries(scores)` in key-insertion order. -/
def scoreEntries (s : Scores) : List (WorkflowPhase × Nat) :=
  [(.exploring, s.exploring), (.iterating, s.iterating), (.building, s.building),
   (.debugging, s.debugging), (.archaeology, s.archaeology), (.unknown, s.unknown)]

/-- The winner loop of `detectPhase`: start from `(unknown, 0)`, replace
only on a strictly greater score. -/
def findWinner (entries : List (WorkflowPhase × Nat)) : WorkflowPhase × Nat :=
  entries.foldl (fun best e => if best.2 < e.2 then e else best) (WorkflowPhase.unknown, 0)

/-- `Math.round(x * 100) / 100` (round to two decimal places; on the
non-negative values that occur, `Math.round` is floor of `x + 1/2`). -/
def round2 (q : ℚ) : ℚ := ((⌊q * 100 + 1 / 2⌋ : Int) : ℚ) / 100

/-- `generateReasoning` of `phaseDetection.ts`. -/
def generateReasoning (phase : WorkflowPhase) (events : List ActivityEvent)
    (files : List String) : String :=
  let fileCount := files.length
  let editCount := (events.filter (fun e => e.kind == "text_change")).length
  let switchCount := (events.filter (fun e => e.kind == "file_switch")).length
  let eventCount := events.length
  match phase with
  | .exploring =>
    s!"Navigated across {fileCount} files with {switchCount} switches and minimal edits ({editCount})"
  | .iterating =>
    s!"Making edits ({editCount}) and running tests/builds across {fileCount} files"
  | .building =>
    s!"Actively writing code with {editCount} edit bursts, focused on {fileCount} files"
  | .debugging =>
    s!"Debug session active with breakpoint activity across {fileCount} files"
  | .archaeology =>
    s!"Browsing git history and navigating {fileCount} files without edits"
  | .unknown =>
    s!"Activity pattern unclear ({eventCount} events, {fileCount} files)"

/-- `detectPhase(events)` of `phaseDetection.ts`. -/
def detectPhase (events : List ActivityEvent) : PhaseAssessment :=
  if events.length < 3 then
    { phase := .unknown, confidence := 0, reasoning := "Insufficient activity",
      recentFiles := [] }
  else
    let scores := scoresOf events
    let best := findWinner (scoreEntries scores)
    let confidence : ℚ := min 1 ((best.2 : ℚ) / 5)
    { phase := best.1
      confidence := round2 confidence
      reasoning := generateReasoning best.1 events (uniqueFilesOf events)
      recentFiles := (uniqueFilesOf events).take 5 }

/-! ## Spec-side formulations (for refinement comparison only) -/

/-- Spec wording of the winner rule (claim C5): the phase with strictly
greatest score, ties broken by the declaration order exploring, iterating,
building, debugging, archaeology; all-zero scores give `unknown`. -/
def specWinnerPhase (s : Scores) : WorkflowPhase :=
  let m := max s.exploring (max s.iterating (max s.building (max s.debugging s.archaeology)))
  if m = 0 then .unknown
  else if m ≤ s.exploring then .exploring
  else if m ≤ s.iterating then .iterating
  else if m ≤ s.building then .building
  else if m ≤ s.debugging then .debugging
  else .archaeology

/-- Spec wording of `recentFiles` (claim C4): distinct resource ids of
`file_switch` endpoints and `text_change` uris in order of FIRST OCCURRENCE
in the event window, truncated to 5. -/
def specRecentFiles (events : List ActivityEvent) : List String :=
  (events.foldl (fun acc e =>
    match e with
    | .fileSwitch _ fromUri toUri _ =>
      let acc1 := match fromUri with
        | some u => setAdd acc u
        | none => acc
      (match toUri with
       | some u => setAdd acc1 u
       | none => acc1)
    | .textChange _ uri _ => setAdd acc uri
    | _ => acc) []).take 5

/-- The `file_switch` endpoint uris of the window, event order, `fromUri`
before `toUri`, nulls skipped. -/
def switchUris (events : List ActivityEvent) : List String :=
  events.flatMap (fun e =>
    match e with
    | .fileSwitch _ fromUri toUri _ => fromUri.toList ++ toUri.toList
    | _ => [])

/-- The `text_change` uris of the window, event order. -/
def textUris (events : List ActivityEvent) : List String :=
  events.flatMap (fun e =>
    match e with
    | .textChange _ uri _ => [uri]
    | _ => [])

/-- The `bestScore` reached by the winner loop (0 on the short-window early
return, which never runs the loop). -/
def bestScoreOf (events : List ActivityEvent) : Nat :=
  if events.length < 3 then 0 else (findWinner (scoreEntries (scoresOf events))).2

/-! ## Text-change debounce (`eventLog.ts`, listener 6)

Single-resource model of the per-uri trailing-edge debounce.  The handler
for one raw `onDidChangeTextDocument` notification ignores empty change
lists, cancels any pending timer for the uri (`clearTimeout`), and
schedules a push of a `text_change` event `TEXT_CHANGE_DEBOUNCE_MS` later
carrying THIS notification's `contentChanges.length` (the closure captures
only the latest `changeCount`).  The host event loop is single-threaded: a
timer that is already due fires before a later notification is handled.
The state is the optional pending timer `(fireAt, changeCount)` plus the
pushed `(timestamp, changeCount)` events. -/

def TEXT_CHANGE_DEBOUNCE_MS : Nat := 2000

/-- Handle one notification `n = (time, contentChanges.length)`. -/
def debounceStep (s : Option (Nat × Nat) × List (Nat × Nat)) (n : Nat × Nat) :
    Option (Nat × Nat) × List (Nat × Nat) :=
  if n.2 = 0 then s
  else
    match s.1 with
    | some (fireAt, pc) =>
      if fireAt ≤ n.1 then
        (some (n.1 + TEXT_CHANGE_DEBOUNCE_MS, n.2), s.2 ++ [(fireAt, pc)])
      else
        (some (n.1 + TEXT_CHANGE_DEBOUNCE_MS, n.2), s.2)
    | none => (some (n.1 + TEXT_CHANGE_DEBOUNCE_MS, n.2), s.2)

/-- Run a notification sequence from the idle state, then reach quiescence:
any still-pending timer fires and pushes its event. -/
def debounceEmitted (notifs : List (Nat × Nat)) : List (Nat × Nat) :=
  match notifs.foldl debounceStep (none, []) with
  | (some p, em) => em ++ [p]
  | (none, em) => em

/-! ## HTTP delivery (`httpClient.ts`)

`postJson` settles depending only on the response outcome; the model maps
an abstract outcome to the settled promise.  A rejection carries the
`Error` message string the source builds. -/

inductive HttpOutcome where
  | response (statusCode : Nat) (body : String)
  | transportError (message : String)
  deriving DecidableEq

/-- `postJson`: resolve on a truthy 2xx `statusCode`, otherwise reject with
`Status <code> body: <body>`; reject with the error itself on a transport
error. -/
def postJson (outcome : HttpOutcome) : Except String Unit :=
  match outcome with
  | .response statusCode body =>
    if statusCode ≠ 0 ∧ 200 ≤ statusCode ∧ statusCode < 300 then Except.ok ()
    else Except.error ("Status " ++ toString statusCode ++ " body: " ++ body)
  | .transportError message => Except.error message

/-! ## ContextBundle wire shape (`types.ts`) and its JSON round trip

The remaining record types of `types.ts`, the JSON value tree
`JSON.stringify` produces for a `ContextBundle` (a key in interface order
per object; a `null`-valued field is kept as JSON `null`; an
`undefined`-valued optional field — `selection`, `exitCode`,
`BreakpointInfo.condition` — is omitted), and a parser for that wire
shape.  JSON numbers are `ℚ` (every number in the bundle is either an
integer or the two-decimal confidence, both carried exactly). -/

inductive DiagnosticSeverity where
  | error
  | warning
  | info
  | hint
  deriving DecidableEq

structure EditorState where
  uri : String
  languageId : String
  cursorLine : Int
  cursorColumn : Int
  selectionText : String
  selectionStartLine : Int
  selectionEndLine : Int
  visibleRangeStart : Int
  visibleRangeEnd : Int
  lineCount : Int
  isDirty : Bool
  deriving DecidableEq

structure TabInfo where
  uri : String
  label : String
  isDirty : Bool
  isActive : Bool
  isPinned : Bool
  deriving DecidableEq

structure DiagnosticInfo where
  uri : String
  severity : DiagnosticSeverity
  message : String
  line : Int
  source : String
  deriving DecidableEq

structure BreakpointInfo where
  uri : String
  line : Int
  enabled : Bool
  condition : Option String
  deriving DecidableEq

structure GitStatus where
  branch : String
  ahead : Int
  behind : Int
  staged : List String
  modified : List String
  untracked : List String
  deriving DecidableEq

structure PolledState where
  activeEditor : Option EditorState
  openTabs : List TabInfo
  dirtyFiles : List String
  diagnostics : List DiagnosticInfo
  breakpoints : List BreakpointInfo
  gitStatus : Option GitStatus
  workspaceFolders : List String
  deriving DecidableEq

structure SelectionInfo where
  uri : String
  startLine : Int
  endLine : Int
  snippet : String
  languageId : String
  deriving DecidableEq

structure ContextBundle where
  version : Int
  timestamp : String
  eventLog : List ActivityEvent
  state : PolledState
  phase : PhaseAssessment
  selection : Option SelectionInfo
  deriving DecidableEq

inductive Json where
  | null
  | bool (b : Bool)
  | num (q : ℚ)
  | str (s : String)
  | arr (elems : List Json)
  | obj (fields : List (String × Json))

/-- A JSON integral number. -/
def Json.ofInt (n : Int) : Json := .num (n : ℚ)

/-- A nullable string (`string | null` keeps an explicit `null`). -/
def Json.ofStrOrNull : Option String → Json
  | some s => .str s
  | none => .null

/-- The `kind`-discriminated serialization of one event, keys in the order
of the push sites of `eventLog.ts`. -/
def encodeEvent : ActivityEvent → Json
  | .fileSwitch ts fromUri toUri toLanguageId =>
    .obj [("kind", .str "file_switch"), ("timestamp", .ofInt ts),
      ("fromUri", .ofStrOrNull fromUri), ("toUri", .ofStrOrNull toUri),
      ("toLanguageId", .ofStrOrNull toLanguageId)]
  | .fileSave ts uri languageId =>
    .obj [("kind", .str "file_save"), ("timestamp", .ofInt ts),
      ("uri", .str uri), ("languageId", .str languageId)]
  | .debugStart ts sessionName sessionType =>
    .obj [("kind", .str "debug_start"), ("timestamp", .ofInt ts),
      ("sessionName", .str sessionName), ("sessionType", .str sessionType)]
  | .debugStop ts sessionName sessionType =>
    .obj [("kind", .str "debug_stop"), ("timestamp", .ofInt ts),
      ("sessionName", .str sessionName), ("sessionType", .str sessionType)]
  | .diagnosticChange ts uris totalErrors totalWarnings =>
    .obj [("kind", .str "diagnostic_change"), ("timestamp", .ofInt ts),
      ("uris", .arr (uris.map Json.str)), ("totalErrors", .ofInt totalErrors),
      ("totalWarnings", .ofInt totalWarnings)]
  | .terminalCommandStart ts commandLine terminalName =>
    .obj [("kind", .str "terminal_command_start"), ("timestamp", .ofInt ts),
      ("commandLine", .str commandLine), ("terminalName", .str terminalName)]
  | .terminalCommandEnd ts commandLine terminalName exitCode =>
    .obj ([("kind", .str "terminal_command_end"), ("timestamp", .ofInt ts),
      ("commandLine", .str commandLine), ("terminalName", .str terminalName)] ++
      (match exitCode with
       | some n => [("exitCode", Json.ofInt n)]
       | none => []))
  | .textChange ts uri changeCount =>
    .obj [("kind", .str "text_change"), ("timestamp", .ofInt ts),
      ("uri", .str uri), ("changeCount", .ofInt changeCount)]
  | .breakpointChange ts added removed changed =>
    .obj [("kind", .str "breakpoint_change"), ("timestamp", .ofInt ts),
      ("added", .ofInt added), ("removed", .ofInt removed), ("changed", .ofInt changed)]

/-- The `severity` label strings of `types.ts`. -/
def encodeSeverity : DiagnosticSeverity → Json
  | .error => .str "error"
  | .warning => .str "warning"
  | .info => .str "info"
  | .hint => .str "hint"

/-- The `WorkflowPhase` label strings of `types.ts`. -/
def encodePhase : WorkflowPhase → Json
  | .exploring => .str "exploring"
  | .iterating => .str "iterating"
  | .building => .str "building"
  | .debugging => .str "debugging"
  | .archaeology => .str "archaeology"
  | .unknown => .str "unknown"

def encodeEditorState (s : EditorState) : Json :=
  .obj [("uri", .str s.uri), ("languageId", .str s.languageId),
    ("cursorLine", .ofInt s.cursorLine), ("cursorColumn", .ofInt s.cursorColumn),
    ("selectionText", .str s.selectionText),
    ("selectionStartLine", .ofInt s.selectionStartLine),
    ("selectionEndLine", .ofInt s.selectionEndLine),
    ("visibleRangeStart", .ofInt s.visibleRangeStart),
    ("visibleRangeEnd", .ofInt s.visibleRangeEnd),
    ("lineCount", .ofInt s.lineCount), ("isDirty", .bool s.isDirty)]

def encodeTabInfo (t : TabInfo) : Json :=
  .obj [("uri", .str t.uri), ("label", .str t.label), ("isDirty", .bool t.isDirty),
    ("isActive", .bool t.isActive), ("isPinned", .bool t.isPinned)]

def encodeDiagnosticInfo (d : DiagnosticInfo) : Json :=
  .obj [("uri", .str d.uri), ("severity", encodeSeverity d.severity),
    ("message", .str d.message), ("line", .ofInt d.line), ("source", .str d.source)]

def encodeBreakpointInfo (b : BreakpointInfo) : Json :=
  .obj ([("uri", .str b.uri), ("line", .ofInt b.line), ("enabled", .bool b.enabled)] ++
    (match b.condition with
     | some c => [("condition", Json.str c)]
     | none => []))

def encodeGitStatus (g : GitStatus) : Json :=
  .obj [("branch", .str g.branch), ("ahead", .ofInt g.ahead), ("behind", .ofInt g.behind),
    ("staged", .arr (g.staged.map Json.str)), ("modified", .arr (g.modified.map Json.str)),
    ("untracked", .arr (g.untracked.map Json.str))]

def encodePolledState (s : PolledState) : Json :=
  .obj [("activeEditor", match s.activeEditor with
      | some es => encodeEditorState es
      | none => Json.null),
    ("openTabs", .arr (s.openTabs.map encodeTabInfo)),
    ("dirtyFiles", .arr (s.dirtyFiles.map Json.str)),
    ("diagnostics", .arr (s.diagnostics.map encodeDiagnosticInfo)),
    ("breakpoints", .arr (s.breakpoints.map encodeBreakpointInfo)),
    ("gitStatus", match s.gitStatus with
      | some g => encodeGitStatus g
      | none => Json.null),
    ("workspaceFolders", .arr (s.workspaceFolders.map Json.str))]

def encodePhaseAssessment (p : PhaseAssessment) : Json :=
  .obj [("phase", encodePhase p.phase), ("confidence", .num p.confidence),
    ("reasoning", .str p.reasoning), ("recentFiles", .arr (p.recentFiles.map Json.str))]

def encodeSelectionInfo (s : SelectionInfo) : Json :=
  .obj [("uri", .str s.uri), ("startLine", .ofInt s.startLine),
    ("endLine", .ofInt s.endLine), ("snippet", .str s.snippet),
    ("languageId", .str s.languageId)]

/-- `JSON.stringify(bundle)` as a JSON value tree: emitted keys in
interface order, the optional `selection` omitted when absent. -/
def encodeContextBundle (b : ContextBundle) : Json :=
  .obj ([("version", .ofInt b.version), ("timestamp", .str b.timestamp),
    ("eventLog", .arr (b.eventLog.map encodeEvent)),
    ("state", encodePolledState b.state),
    ("phase", encodePhaseAssessment b.phase)] ++
    (match b.selection with
     | some s => [("selection", encodeSelectionInfo s)]
     | none => []))

/-! ### Wire-format parser.  `Modelled from the spec:` parsing of the
bundle JSON is not part of `src/` (the bundle is delivered as-is and read
by the consumer), so these decoders follow §3/§6 of the spec: the
`ContextBundle` shape with `version` fixed at 1, nullable fields as JSON
`null`, optional fields as missing keys. -/

/-- Field lookup in a JSON object. -/
def Json.getField (j : Json) (key : String) : Option Json :=
  match j with
  | .obj fields => fields.lookup key
  | _ => none

def Json.asStr : Json → Option String
  | .str s => some s
  | _ => none

def Json.asBool : Json → Option Bool
  | .bool b => some b
  | _ => none

def Json.asNum : Json → Option ℚ
  | .num q => some q
  | _ => none

/-- A JSON number that must be integral. -/
def Json.asInt : Json → Option Int
  | .num q => if q.den = 1 then some q.num else none
  | _ => none

def Json.asStrOrNull : Json → Option (Option String)
  | .null => some none
  | .str s => some (some s)
  | _ => none

/-- Decode the elements of a JSON array. -/
def decodeList {α : Type} (dec : Json → Option α) : Json → Option (List α)
  | .arr elems => elems.mapM dec
  | _ => none

/-- A field that is either `null` or a decodable value. -/
def decodeOrNull {α : Type} (dec : Json → Option α) : Json → Option (Option α)
  | .null => some none
  | j => (dec j).map some

/-- Modelled from the spec: parse one event of the §3 tagged union. -/
def decodeEvent (j : Json) : Option ActivityEvent := do
  let kind ← (j.getField "kind").bind Json.asStr
  let ts ← (j.getField "timestamp").bind Json.asInt
  if kind = "file_switch" then
    let fromUri ← (j.getField "fromUri").bind Json.asStrOrNull
    let toUri ← (j.getField "toUri").bind Json.asStrOrNull
    let toLanguageId ← (j.getField "toLanguageId").bind Json.asStrOrNull
    pure (ActivityEvent.fileSwitch ts fromUri toUri toLanguageId)
  else if kind = "file_save" then
    let uri ← (j.getField "uri").bind Json.asStr
    let languageId ← (j.getField "languageId").bind Json.asStr
    pure (ActivityEvent.fileSave ts uri languageId)
  else if kind = "debug_start" then
    let sessionName ← (j.getField "sessionName").bind Json.asStr
    let sessionType ← (j.getField "sessionType").bind Json.asStr
    pure (ActivityEvent.debugStart ts sessionName sessionType)
  else if kind = "debug_stop" then
    let sessionName ← (j.getField "sessionName").bind Json.asStr
    let sessionType ← (j.getField "sessionType").bind Json.asStr
    pure (ActivityEvent.debugStop ts sessionName sessionType)
  else if kind = "diagnostic_change" then
    let uris ← (j.getField "uris").bind (decodeList Json.asStr)
    let totalErrors ← (j.getField "totalErrors").bind Json.asInt
    let totalWarnings ← (j.getField "totalWarnings").bind Json.asInt
    pure (ActivityEvent.diagnosticChange ts uris totalErrors totalWarnings)
  else if kind = "terminal_command_start" then
    let commandLine ← (j.getField "commandLine").bind Json.asStr
    let terminalName ← (j.getField "terminalName").bind Json.asStr
    pure (ActivityEvent.terminalCommandStart ts commandLine terminalName)
  else if kind = "terminal_command_end" then
    let commandLine ← (j.getField "commandLine").bind Json.asStr
    let terminalName ← (j.getField "terminalName").bind Json.asStr
    match j.getField "exitCode" with
    | some jv => do
      let n ← jv.asInt
      pure (ActivityEvent.terminalCommandEnd ts commandLine terminalName (some n))
    | none => pure (ActivityEvent.terminalCommandEnd ts commandLine terminalName none)
  else if kind = "text_change" then
    let uri ← (j.getField "uri").bind Json.asStr
    let changeCount ← (j.getField "changeCount").bind Json.asInt
    pure (ActivityEvent.textChange ts uri changeCount)
  else if kind = "breakpoint_change" then
    let added ← (j.getField "added").bind Json.asInt
    let removed ← (j.getField "removed").bind Json.asInt
    let changed ← (j.getField "changed").bind Json.asInt
    pure (ActivityEvent.breakpointChange ts added removed changed)
  else none

/-- Modelled from the spec: the four severity labels. -/
def decodeSeverity (j : Json) : Option DiagnosticSeverity := do
  match ← j.asStr with
  | "error" => pure .error
  | "warning" => pure .warning
  | "info" => pure .info
  | "hint" => pure .hint
  | _ => none

/-- Modelled from the spec: the six phase labels. -/
def decodePhase (j : Json) : Option WorkflowPhase := do
  match ← j.asStr with
  | "exploring" => pure .exploring
  | "iterating" => pure .iterating
  | "building" => pure .building
  | "debugging" => pure .debugging
  | "archaeology" => pure .archaeology
  | "unknown" => pure .unknown
  | _ => none

/-- Modelled from the spec: the active-editor record. -/
def decodeEditorState (j : Json) : Option EditorState := do
  let uri ← (j.getField "uri").bind Json.asStr
  let languageId ← (j.getField "languageId").bind Json.asStr
  let cursorLine ← (j.getField "cursorLine").bind Json.asInt
  let cursorColumn ← (j.getField "cursorColumn").bind Json.asInt
  let selectionText ← (j.getField "selectionText").bind Json.asStr
  let selectionStartLine ← (j.getField "selectionStartLine").bind Json.asInt
  let selectionEndLine ← (j.getField "selectionEndLine").bind Json.asInt
  let visibleRangeStart ← (j.getField "visibleRangeStart").bind Json.asInt
  let visibleRangeEnd ← (j.getField "visibleRangeEnd").bind Json.asInt
  let lineCount ← (j.getField "lineCount").bind Json.asInt
  let isDirty ← (j.getField "isDirty").bind Json.asBool
  pure ⟨uri, languageId, cursorLine, cursorColumn, selectionText, selectionStartLine,
    selectionEndLine, visibleRangeStart, visibleRangeEnd, lineCount, isDirty⟩

/-- Modelled from the spec: one open-tab record. -/
def decodeTabInfo (j : Json) : Option TabInfo := do
  let uri ← (j.getField "uri").bind Json.asStr
  let label ← (j.getField "label").bind Json.asStr
  let isDirty ← (j.getField "isDirty").bind Json.asBool
  let isActive ← (j.getField "isActive").bind Json.asBool
  let isPinned ← (j.getField "isPinned").bind Json.asBool
  pure ⟨uri, label, isDirty, isActive, isPinned⟩

/-- Modelled from the spec: one diagnostic record. -/
def decodeDiagnosticInfo (j : Json) : Option DiagnosticInfo := do
  let uri ← (j.getField "uri").bind Json.asStr
  let severity ← (j.getField "severity").bind decodeSeverity
  let message ← (j.getField "message").bind Json.asStr
  let line ← (j.getField "line").bind Json.asInt
  let src ← (j.getField "source").bind Json.asStr
  pure ⟨uri, severity, message, line, src⟩

/-- Modelled from the spec: one breakpoint record (`condition` optional). -/
def decodeBreakpointInfo (j : Json) : Option BreakpointInfo := do
  let uri ← (j.getField "uri").bind Json.asStr
  let line ← (j.getField "line").bind Json.asInt
  let enabled ← (j.getField "enabled").bind Json.asBool
  match j.getField "condition" with
  | some jv => do
    let c ← jv.asStr
    pure ⟨uri, line, enabled, some c⟩
  | none => pure ⟨uri, line, enabled, none⟩

/-- Modelled from the spec: the source-control record. -/
def decodeGitStatus (j : Json) : Option GitStatus := do
  let branch ← (j.getField "branch").bind Json.asStr
  let ahead ← (j.getField "ahead").bind Json.asInt
  let behind ← (j.getField "behind").bind Json.asInt
  let staged ← (j.getField "staged").bind (decodeList Json.asStr)
  let modified ← (j.getField "modified").bind (decodeList Json.asStr)
  let untracked ← (j.getField "untracked").bind (decodeList Json.asStr)
  pure ⟨branch, ahead, behind, staged, modified, untracked⟩

/-- Modelled from the spec: the polled ambient state. -/
def decodePolledState (j : Json) : Option PolledState := do
  let activeEditor ← (j.getField "activeEditor").bind (decodeOrNull decodeEditorState)
  let openTabs ← (j.getField "openTabs").bind (decodeList decodeTabInfo)
  let dirtyFiles ← (j.getField "dirtyFiles").bind (decodeList Json.asStr)
  let diagnostics ← (j.getField "diagnostics").bind (decodeList decodeDiagnosticInfo)
  let breakpoints ← (j.getField "breakpoints").bind (decodeList decodeBreakpointInfo)
  let gitStatus ← (j.getField "gitStatus").bind (decodeOrNull decodeGitStatus)
  let workspaceFolders ← (j.getField "workspaceFolders").bind (decodeList Json.asStr)
  pure ⟨activeEditor, openTabs, dirtyFiles, diagnostics, breakpoints, gitStatus,
    workspaceFolders⟩

/-- Modelled from the spec: the phase assessment. -/
def decodePhaseAssessment (j : Json) : Option PhaseAssessment := do
  let phase ← (j.getField "phase").bind decodePhase
  let confidence ← (j.getField "confidence").bind Json.asNum
  let reasoning ← (j.getField "reasoning").bind Json.asStr
  let recentFiles ← (j.getField "recentFiles").bind (decodeList Json.asStr)
  pure ⟨phase, confidence, reasoning, recentFiles⟩

/-- Modelled from the spec: the optional selection record. -/
def decodeSelectionInfo (j : Json) : Option SelectionInfo := do
  let uri ← (j.getField "uri").bind Json.asStr
  let startLine ← (j.getField "startLine").bind Json.asInt
  let endLine ← (j.getField "endLine").bind Json.asInt
  let snippet ← (j.getField "snippet").bind Json.asStr
  let languageId ← (j.getField "languageId").bind Json.asStr
  pure ⟨uri, startLine, endLine, snippet, languageId⟩

/-- Modelled from the spec: parse a wire bundle; the `version` field is
fixed at 1 for this wire format (§6). -/
def decodeContextBundle (j : Json) : Option ContextBundle := do
  let version ← (j.getField "version").bind Json.asInt
  if version = 1 then
    let timestamp ← (j.getField "timestamp").bind Json.asStr
    let eventLog ← (j.getField "eventLog").bind (decodeList decodeEvent)
    let state ← (j.getField "state").bind decodePolledState
    let phase ← (j.getField "phase").bind decodePhaseAssessment
    match j.getField "selection" with
    | some jv => do
      let s ← decodeSelectionInfo jv
      pure ⟨version, timestamp, eventLog, state, phase, some s⟩
    | none => pure ⟨version, timestamp, eventLog, state, phase, none⟩
  else none

/-- A version-1 bundle exercising every optional field: a command end with
unknown exit code, no source-control status, a captured selection. -/
def exampleBundle : ContextBundle :=
  ⟨1, "2026-02-03T04:05:06.789Z",
    [ActivityEvent.textChange 100 "file:///a.ts" 2,
     ActivityEvent.terminalCommandEnd 200 "npm test" "bash" none,
     ActivityEvent.fileSwitch 300 (some "file:///a.ts") none none],
    ⟨some ⟨"file:///a.ts", "typescript", 4, 2, "x", 4, 4, 1, 40, 80, true⟩,
     [⟨"file:///a.ts", "a.ts", true, true, false⟩],
     ["file:///a.ts"],
     [⟨"file:///a.ts", .warning, "unused", 7, "ts"⟩],
     [⟨"file:///a.ts", 12, true, none⟩],
     none,
     ["file:///"]⟩,
    ⟨.building, 3 / 5, "edits", ["file:///a.ts"]⟩,
    some ⟨"file:///a.ts", 4, 4, "x", "typescript"⟩⟩

end CtxBridge

namespace CtxBridge

/-! ### RingBuffer lemmas -/

theorem pushAll_append_single {T : Type} (b : RingBuffer T) (xs : List T) (x : T) :
    b.pushAll (xs ++ [x]) = (b.pushAll xs).push x := by
  simp [RingBuffer.pushAll]

/-- Ranged reads out of a list form a contiguous slice. -/
theorem range_filterMap_get {α : Type} (l : List α) (m : Nat) :
    ∀ k : Nat, (List.range k).filterMap (fun i => l[m + i]?) = (l.drop m).take k := by
  intro k
  induction k with
  | zero => simp
  | succ k ih =>
    rw [List.range_succ, List.filterMap_append, ih, List.take_succ]
    rw [List.getElem?_drop]
    cases h : l[m + k]? <;> simp [List.filterMap_cons, h]

/-- State of a buffer after pushing `xs` into a fresh buffer of capacity `C`:
cursor and count, and the contents of every slot holding one of the last
`C` pushed items. -/
theorem pushAll_state {T : Type} (C : Nat) (hC : 0 < C) (xs : List T) :
    ((RingBuffer.empty T C).pushAll xs).capacity = C ∧
    ((RingBuffer.empty T C).pushAll xs).buffer.length = C ∧
    ((RingBuffer.empty T C).pushAll xs).head = xs.length % C ∧
    ((RingBuffer.empty T C).pushAll xs).count = min xs.length C ∧
    ∀ k : Nat, k < xs.length → xs.length ≤ k + C →
      ((RingBuffer.empty T C).pushAll xs).buffer.getD (k % C) none = xs[k]? := by
  induction xs using List.reverseRecOn with
  | nil =>
    refine ⟨rfl, ?_, rfl, ?_, ?_⟩
    · simp [RingBuffer.pushAll, RingBuffer.empty]
    · simp [RingBuffer.pushAll, RingBuffer.empty]
    · intro k hk; simp at hk
  | append_singleton xs x ih =>
    obtain ⟨hcap, hlen, hhead, hcount, hget⟩ := ih
    rw [pushAll_append_single]
    set s := (RingBuffer.empty T C).pushAll xs with hs
    set n := xs.length with hn
    have hmodlt : n % C < C := Nat.mod_lt _ hC
    refine ⟨by simp [RingBuffer.push, hcap], ?_, ?_, ?_, ?_⟩
    · simp [RingBuffer.push, hlen]
    · simp only [RingBuffer.push, hcap, hhead, List.length_append, List.length_singleton]
      exact Nat.mod_add_mod n C 1
    · simp only [RingBuffer.push, hcap, hcount, List.length_append, List.length_singleton]
      split <;> omega
    · intro k hk hkC
      simp only [RingBuffer.push, hcap, hhead]
      simp only [List.length_append, List.length_singleton] at hk hkC
      rcases Nat.lt_or_ge k n with hkn | hkn
      · -- an older surviving slot: the new write lands elsewhere
        have hne : n % C ≠ k % C := by
          intro heq
          have hmod : k ≡ n [MOD C] := by
            unfold Nat.ModEq; omega
          have hdvd : C ∣ n - k := (Nat.modEq_iff_dvd' (Nat.le_of_lt hkn)).mp hmod
          have hpos : 0 < n - k := by omega
          have := Nat.le_of_dvd hpos hdvd
          omega
        rw [List.getD_eq_getElem?_getD, List.getElem?_set_ne hne,
          ← List.getD_eq_getElem?_getD, hget k hkn (by omega)]
        rw [List.getElem?_append_left hkn]
      · -- k = n: the slot just written holds the new item
        have hkeq : k = n := by omega
        have hlt : n % C < s.buffer.length := by rw [hlen]; exact hmodlt
        rw [hkeq, List.getD_eq_getElem?_getD, List.getElem?_set_eq_of_lt _ hlt]
        have hgoal : (xs ++ [x])[n]? = some x := by
          rw [hn, List.getElem?_concat_length]
        rw [hgoal]
        rfl

/-- `toArray` after pushing `xs` into a fresh buffer of positive capacity `C`
is the slice of the most recent `min |xs| C` pushes, oldest first. -/
theorem toArray_pushAll {T : Type} (C : Nat) (hC : 0 < C) (xs : List T) :
    ((RingBuffer.empty T C).pushAll xs).toArray = xs.drop (xs.length - C) := by
  obtain ⟨hcap, hlen, hhead, hcount, hget⟩ := pushAll_state C hC xs
  set s := (RingBuffer.empty T C).pushAll xs with hs
  set n := xs.length with hn
  rcases Nat.eq_zero_or_pos n with h0 | hpos
  · have hxs : xs = [] := List.length_eq_zero.mp (by omega)
    subst hxs
    rw [RingBuffer.toArray, if_pos (by rw [hcount]; omega)]
    simp
  rcases Nat.lt_or_ge n C with hnC | hnC
  · -- not yet full: the whole push history is returned
    have hcnt : s.count = n := by rw [hcount]; omega
    rw [RingBuffer.toArray, if_neg (by omega)]
    have hstart : (if s.count < s.capacity then 0 else s.head) = 0 := by
      rw [hcnt, hcap]; exact if_pos hnC
    rw [hstart, hcnt, hcap]
    have hcong : ∀ i ∈ List.range n, s.buffer.getD ((0 + i) % C) none = xs[0 + i]? := by
      intro i hi
      rw [List.mem_range] at hi
      have hiC : (0 + i) % C = i := by
        rw [Nat.zero_add]; exact Nat.mod_eq_of_lt (by omega)
      rw [hiC, Nat.zero_add]
      have h := hget i hi (by omega)
      rwa [Nat.mod_eq_of_lt (by omega)] at h
    rw [List.filterMap_congr hcong, range_filterMap_get]
    rw [List.drop_zero, Nat.sub_eq_zero_of_le (Nat.le_of_lt hnC), List.drop_zero,
      hn, List.take_length]
  · -- full: exactly the last `C` pushes survive
    have hcnt : s.count = C := by rw [hcount]; omega
    rw [RingBuffer.toArray, if_neg (by omega)]
    have hstart : (if s.count < s.capacity then 0 else s.head) = n % C := by
      rw [hcnt, hcap, if_neg (lt_irrefl C), hhead]
    rw [hstart, hcnt, hcap]
    have hcong : ∀ i ∈ List.range C,
        s.buffer.getD ((n % C + i) % C) none = xs[(n - C) + i]? := by
      intro i hi
      rw [List.mem_range] at hi
      have hmod : (n % C + i) % C = (n - C + i) % C := by
        rw [Nat.mod_add_mod]
        have harith : n + i = (n - C + i) + C := by omega
        rw [harith, Nat.add_mod_right]
      rw [hmod]
      exact hget _ (by omega) (by omega)
    rw [List.filterMap_congr hcong, range_filterMap_get]
    have hdlen : (xs.drop (n - C)).length = C := by
      rw [List.length_drop, ← hn]; omega
    exact List.take_of_length_le (le_of_eq hdlen)

/-- C2: for every sequence of pushes into a `RingBuffer` of capacity `C`,
`size ≤ capacity` always holds; whenever the number of pushes exceeds `C`,
`toArray()` has exactly `C` items and equals the `C` most-recently-pushed
items in push order; and once `size = capacity`, each further push evicts
exactly the oldest item. -/
theorem ringBuffer_bounded_eviction (T : Type) (C : Nat) (hC : 0 < C) (xs : List T) :
    ((RingBuffer.empty T C).pushAll xs).size ≤ C ∧
    (C < xs.length →
      ((RingBuffer.empty T C).pushAll xs).toArray.length = C ∧
      ((RingBuffer.empty T C).pushAll xs).toArray = xs.drop (xs.length - C)) ∧
    (((RingBuffer.empty T C).pushAll xs).size = C → ∀ x : T,
      (((RingBuffer.empty T C).pushAll xs).push x).toArray =
        ((RingBuffer.empty T C).pushAll xs).toArray.drop 1 ++ [x]) := by
  obtain ⟨hcap, hlen, hhead, hcount, hget⟩ := pushAll_state C hC xs
  refine ⟨?_, ?_, ?_⟩
  · rw [RingBuffer.size, hcount]; omega
  · intro hlong
    constructor
    · rw [toArray_pushAll C hC xs, List.length_drop]; omega
    · exact toArray_pushAll C hC xs
  · intro hfull x
    rw [RingBuffer.size, hcount] at hfull
    have hge : C ≤ xs.length := by omega
    have hstep : ((RingBuffer.empty T C).pushAll xs).push x =
        (RingBuffer.empty T C).pushAll (xs ++ [x]) :=
      (pushAll_append_single _ xs x).symm
    rw [hstep, toArray_pushAll C hC (xs ++ [x]), toArray_pushAll C hC xs,
      List.length_append, List.length_singleton, List.drop_drop,
      List.drop_append_of_le_length (by omega)]
    congr 2
    omega

/-- A monotone (non-decreasing timestamp) list is filtered by a cutoff
exactly as it is split at the cutoff: keeping timestamps `≥ cutoff` is the
same as dropping the leading run of timestamps `< cutoff`. -/
theorem filter_eq_dropWhile_of_sorted {T : Type} (ts : T → Int) (cutoff : Int) :
    ∀ l : List T, l.Pairwise (fun a b => ts a ≤ ts b) →
      l.filter (fun x => decide (cutoff ≤ ts x)) =
        l.dropWhile (fun x => decide (ts x < cutoff)) := by
  intro l hl
  induction l with
  | nil => rfl
  | cons a l ih =>
    rw [List.pairwise_cons] at hl
    obtain ⟨ha, hl'⟩ := hl
    by_cases hcut : cutoff ≤ ts a
    · rw [List.filter_cons_of_pos (by simpa using hcut),
        List.dropWhile_cons_of_neg (by simpa using hcut)]
      rw [List.filter_eq_self.mpr]
      intro b hb
      simpa using le_trans hcut (ha b hb)
    · rw [List.filter_cons_of_neg (by simpa using hcut),
        List.dropWhile_cons_of_pos (by simpa using hcut)]
      exact ih hl'

/-- C3: on a buffer whose `toArray` is in non-decreasing timestamp order
(the documented invariant), `since(w, now)` is exactly the suffix of
`toArray()` of items with timestamp `≥ now − w`: it equals `toArray()` with
the leading too-old run removed, is a suffix, contains only qualifying
items, equals the full array when every item qualifies, and is empty when
no item qualifies. -/
theorem ringBuffer_since_window {T : Type} (ts : T → Int) (b : RingBuffer T) (w now : Int)
    (hsorted : b.toArray.Pairwise (fun a c => ts a ≤ ts c)) :
    b.since ts w now = b.toArray.dropWhile (fun x => decide (ts x < now - w)) ∧
    b.since ts w now <:+ b.toArray ∧
    (∀ x ∈ b.since ts w now, now - w ≤ ts x) ∧
    ((∀ x ∈ b.toArray, now - w ≤ ts x) → b.since ts w now = b.toArray) ∧
    ((∀ x ∈ b.toArray, ts x < now - w) → b.since ts w now = []) := by
  have hfd := filter_eq_dropWhile_of_sorted ts (now - w) b.toArray hsorted
  refine ⟨hfd, ?_, ?_, ?_, ?_⟩
  · rw [RingBuffer.since, hfd]
    exact List.dropWhile_suffix _
  · intro x hx
    rw [RingBuffer.since] at hx
    simpa using (List.mem_filter.mp hx).2
  · intro hall
    rw [RingBuffer.since, List.filter_eq_self.mpr]
    intro a hmem
    simpa using hall a hmem
  · intro hnone
    rw [RingBuffer.since, List.filter_eq_nil_iff.mpr]
    intro a hmem
    have hlt := hnone a hmem
    simp only [decide_eq_true_eq]
    omega

/-- Concrete run of C2: three pushes into a capacity-2 buffer keep the last
two, and a push on the full buffer evicts the oldest. -/
theorem ringBuffer_bounded_eviction_witness :
    ((RingBuffer.empty Nat 2).pushAll [1, 2, 3]).toArray = [2, 3] ∧
    (((RingBuffer.empty Nat 2).pushAll [1, 2, 3]).push 9).toArray = [3, 9] := by
  obtain ⟨hsize, hfull, hevict⟩ := ringBuffer_bounded_eviction Nat 2 (by decide) [1, 2, 3]
  constructor
  · exact ((hfull (by decide)).2).trans (by decide)
  · rw [hevict (by decide) 9, (hfull (by decide)).2]
    decide

/-- Concrete run of C3: cutoff 1500 on timestamps 1000/2000/3000 keeps the
suffix of the two recent items. -/
theorem ringBuffer_since_window_witness :
    ((RingBuffer.empty Int 5).pushAll [1000, 2000, 3000]).since id 1500 3000 = [2000, 3000] := by
  have h := ringBuffer_since_window id ((RingBuffer.empty Int 5).pushAll [1000, 2000, 3000])
    1500 3000 (by decide)
  rw [h.1]
  decide

/-! ### Classifier lemmas -/

set_option maxHeartbeats 3200000 in
/-- The winner loop and the spec's winner rule agree on arbitrary scores
(the `unknown` entry always carries 0 in `detectPhase`), and the winning
score is the maximum of the five phase scores. -/
theorem findWinner_spec (e i b d a : Nat) :
    findWinner [(.exploring, e), (.iterating, i), (.building, b), (.debugging, d),
      (.archaeology, a), (.unknown, 0)] =
      (specWinnerPhase ⟨e, i, b, d, a, 0⟩, max e (max i (max b (max d a)))) := by
  rw [findWinner]
  rw [List.foldl_cons]; simp only []; split_ifs with h1
  all_goals (rw [List.foldl_cons]; simp only []; split_ifs with h2)
  all_goals (rw [List.foldl_cons]; simp only []; split_ifs with h3)
  all_goals (rw [List.foldl_cons]; simp only []; split_ifs with h4)
  all_goals (rw [List.foldl_cons]; simp only []; split_ifs with h5)
  all_goals (rw [List.foldl_cons]; simp only []; split_ifs with h6)
  all_goals rw [List.foldl_nil]
  all_goals simp only [specWinnerPhase]
  all_goals (split_ifs <;> rw [Prod.ext_iff] <;> refine ⟨?_, ?_⟩ <;> first | rfl | omega)

/-- Filtering on a `kind` no event of the window has yields nothing. -/
theorem filter_kind_eq_nil {events : List ActivityEvent} {k : String}
    (h : ∀ e ∈ events, e.kind ≠ k) :
    events.filter (fun e => e.kind == k) = [] :=
  List.filter_eq_nil_iff.mpr (fun e he => by simpa using h e he)

/-- If the spec winner rule picks `unknown`, every phase score is zero. -/
theorem specWinnerPhase_unknown_max {s : Scores} (h : specWinnerPhase s = .unknown) :
    max s.exploring (max s.iterating (max s.building (max s.debugging s.archaeology))) = 0 := by
  simp only [specWinnerPhase] at h
  split_ifs at h with g1 g2 g3 g4 g5
  exact g1

/-- The spec winner rule never picks `debugging` when its score is zero. -/
theorem specWinnerPhase_ne_debugging {s : Scores} (h : s.debugging = 0) :
    specWinnerPhase s ≠ .debugging := by
  simp only [specWinnerPhase]
  split_ifs with g1 g2 g3 g4 g5 <;> intro hc
  · exact absurd hc (by simp)
  · exact absurd hc (by simp)
  · exact absurd hc (by simp)
  · exact absurd hc (by simp)
  · omega
  · exact absurd hc (by simp)

/-- `detectPhase` on a full window, with the lets expanded. -/
theorem detectPhase_full (events : List ActivityEvent) (h3 : ¬ events.length < 3) :
    detectPhase events =
      { phase := (findWinner (scoreEntries (scoresOf events))).1
        confidence :=
          round2 (min 1 (((findWinner (scoreEntries (scoresOf events))).2 : ℚ) / 5))
        reasoning := generateReasoning (findWinner (scoreEntries (scoresOf events))).1 events
          (uniqueFilesOf events)
        recentFiles := (uniqueFilesOf events).take 5 } := by
  rw [detectPhase, if_neg h3]

/-- The entry list of `detectPhase` (the `unknown` score is the literal 0). -/
theorem scoreEntries_scoresOf (events : List ActivityEvent) :
    scoreEntries (scoresOf events) =
      [(.exploring, (scoresOf events).exploring), (.iterating, (scoresOf events).iterating),
       (.building, (scoresOf events).building), (.debugging, (scoresOf events).debugging),
       (.archaeology, (scoresOf events).archaeology), (.unknown, 0)] := rfl

/-- The winner pair of `detectPhase` is the spec winner and the maximal
phase score. -/
theorem findWinner_scoresOf (events : List ActivityEvent) :
    findWinner (scoreEntries (scoresOf events)) =
      (specWinnerPhase (scoresOf events),
       max (scoresOf events).exploring (max (scoresOf events).iterating
         (max (scoresOf events).building
           (max (scoresOf events).debugging (scoresOf events).archaeology)))) := by
  rw [scoreEntries_scoresOf, findWinner_spec]
  rfl

/-- The debugging score, spelled out. -/
theorem scoresOf_debugging (events : List ActivityEvent) :
    (scoresOf events).debugging =
      (if (events.filter (fun e => e.kind == "debug_stop")).length <
          (events.filter (fun e => e.kind == "debug_start")).length then 4 else 0) +
      (if 1 ≤ (events.filter (fun e => e.kind == "breakpoint_change")).length then 2 else 0) +
      (if 1 ≤ (events.filter (fun e => e.kind == "debug_start")).length then 1 else 0) := rfl

/-- `Math.round(q * 100) / 100` is the identity whenever `q * 100` is a
whole number. -/
theorem round2_of_mul_hundred (q : ℚ) (m : ℤ) (hm : q * 100 = (m : ℚ)) : round2 q = q := by
  rw [round2, hm]
  rw [show ((m : ℚ) + 1 / 2) = (m : ℚ) + (1 / 2 : ℚ) from rfl, Int.floor_int_add,
    Int.floor_eq_zero_iff.mpr (by constructor <;> norm_num)]
  have h100 : (100 : ℚ) ≠ 0 := by norm_num
  push_cast
  rw [add_zero, ← hm, mul_div_assoc, div_self h100, mul_one]

/-- Rounding to two decimals does not move `min 1 (n/5)` for whole `n`. -/
theorem round2_conf (n : Nat) : round2 (min 1 ((n : ℚ) / 5)) = min 1 ((n : ℚ) / 5) := by
  rcases Nat.lt_or_ge n 5 with h | h
  · have hle : (n : ℚ) / 5 ≤ 1 := by
      rw [div_le_one (by norm_num)]
      have : (n : ℚ) ≤ 4 := by exact_mod_cast Nat.le_of_lt_succ h
      linarith
    rw [min_eq_right hle]
    refine round2_of_mul_hundred _ (20 * (n : ℤ)) ?_
    push_cast
    ring
  · have h5 : (1 : ℚ) ≤ (n : ℚ) / 5 := by
      rw [le_div_iff₀ (by norm_num)]
      have : (5 : ℚ) ≤ (n : ℚ) := by exact_mod_cast h
      linarith
    rw [min_eq_left h5]
    exact round2_of_mul_hundred _ 100 (by norm_num)

/-- The switch pass of the `uniqueFiles` loop is a plain set-fold of the
switch endpoint uris. -/
theorem foldl_addSwitchUris (evs : List ActivityEvent) :
    ∀ acc : List String,
      (evs.filter (fun e => e.kind == "file_switch")).foldl addSwitchUris acc =
        (switchUris evs).foldl setAdd acc := by
  induction evs with
  | nil => intro acc; rfl
  | cons e evs ih =>
    intro acc
    cases e with
    | fileSwitch ts f t lang => cases f <;> cases t <;> exact ih _
    | fileSave ts u l => exact ih _
    | debugStart ts n ty => exact ih _
    | debugStop ts n ty => exact ih _
    | diagnosticChange ts us te tw => exact ih _
    | terminalCommandStart ts cl tn => exact ih _
    | terminalCommandEnd ts cl tn ec => exact ih _
    | textChange ts u cc => exact ih _
    | breakpointChange ts ad rm ch => exact ih _

/-- The text-change pass of the `uniqueFiles` loop is a plain set-fold of
the text-change uris. -/
theorem foldl_addTextChangeUri (evs : List ActivityEvent) :
    ∀ acc : List String,
      (evs.filter (fun e => e.kind == "text_change")).foldl addTextChangeUri acc =
        (textUris evs).foldl setAdd acc := by
  induction evs with
  | nil => intro acc; rfl
  | cons e evs ih =>
    intro acc
    cases e <;> exact ih _

/-- Folding the JS-`Set` insertion is `eraseDups` (first occurrences, in
order). -/
theorem foldl_setAdd_loop :
    ∀ l acc : List String, l.foldl setAdd acc = List.eraseDups.loop l acc.reverse := by
  intro l
  induction l with
  | nil => intro acc; simp [List.eraseDups.loop]
  | cons a l ih =>
    intro acc
    by_cases hmem : a ∈ acc
    · have helem : acc.reverse.elem a = true := by
        rw [List.elem_iff]
        simpa using hmem
      rw [List.foldl_cons, List.eraseDups.loop, helem]
      rw [setAdd, if_pos hmem]
      exact ih acc
    · have helem : acc.reverse.elem a = false := by
        rw [Bool.eq_false_iff]
        intro hc
        rw [List.elem_iff] at hc
        simp at hc
        exact hmem hc
      rw [List.foldl_cons, List.eraseDups.loop, helem]
      rw [setAdd, if_neg hmem]
      have hrev : (acc ++ [a]).reverse = a :: acc.reverse := by simp
      rw [← hrev]
      exact ih (acc ++ [a])

/-- `uniqueFiles` is the first-occurrence dedup of the endpoint-then-edit
uri sequence. -/
theorem uniqueFilesOf_eraseDups (events : List ActivityEvent) :
    uniqueFilesOf events = (switchUris events ++ textUris events).eraseDups := by
  rw [uniqueFilesOf, foldl_addTextChangeUri, foldl_addSwitchUris, ← List.foldl_append]
  rw [foldl_setAdd_loop]
  rfl

/-! ### Classifier claims -/

/-- C5: for windows of at least 3 events the returned phase is the phase
with strictly greatest score; ties keep the earliest phase in the order
exploring, iterating, building, debugging, archaeology; and when every
score is 0 the phase is `unknown` (`specWinnerPhase` states that rule). -/
theorem detectPhase_winner_rule (events : List ActivityEvent) (h3 : 3 ≤ events.length) :
    (detectPhase events).phase = specWinnerPhase (scoresOf events) := by
  rw [detectPhase_full events (by omega)]
  show (findWinner (scoreEntries (scoresOf events))).1 = _
  rw [findWinner_scoresOf]

/-- Concrete run of C5: an active debug session with breakpoint activity
wins as `debugging`, agreeing with the spec winner rule. -/
theorem detectPhase_winner_rule_witness :
    (detectPhase [ActivityEvent.debugStart 0 "Launch" "node",
      ActivityEvent.breakpointChange 1 2 0 0,
      ActivityEvent.fileSwitch 2 (some "a.ts") (some "b.ts") (some "ts")]).phase =
      specWinnerPhase (scoresOf [ActivityEvent.debugStart 0 "Launch" "node",
        ActivityEvent.breakpointChange 1 2 0 0,
        ActivityEvent.fileSwitch 2 (some "a.ts") (some "b.ts") (some "ts")]) ∧
    specWinnerPhase (scoresOf [ActivityEvent.debugStart 0 "Launch" "node",
      ActivityEvent.breakpointChange 1 2 0 0,
      ActivityEvent.fileSwitch 2 (some "a.ts") (some "b.ts") (some "ts")]) =
      .debugging :=
  ⟨detectPhase_winner_rule _ (by decide), by decide⟩

/-- C6: the confidence is `min(1, bestScore / 5)` (the two-decimal rounding
the code applies is the identity on these values) and always lies in
`[0, 1]`, on the early return as well as on the scored path. -/
theorem detectPhase_confidence_minmax (events : List ActivityEvent) :
    (detectPhase events).confidence = min 1 ((bestScoreOf events : ℚ) / 5) ∧
    0 ≤ (detectPhase events).confidence ∧ (detectPhase events).confidence ≤ 1 := by
  by_cases h : events.length < 3
  · rw [detectPhase, if_pos h, bestScoreOf, if_pos h]
    norm_num
  · rw [detectPhase_full events h, bestScoreOf, if_neg h]
    refine ⟨?_, ?_, ?_⟩
    · show round2 (min 1 (((findWinner (scoreEntries (scoresOf events))).2 : ℚ) / 5)) = _
      rw [round2_conf]
    · show (0 : ℚ) ≤
        round2 (min 1 (((findWinner (scoreEntries (scoresOf events))).2 : ℚ) / 5))
      rw [round2_conf]
      exact le_min (by norm_num) (by positivity)
    · show round2 (min 1 (((findWinner (scoreEntries (scoresOf events))).2 : ℚ) / 5)) ≤ 1
      rw [round2_conf]
      exact min_le_left _ _

/-- C10: whenever the classifier reports `unknown` — short window or
all-zero scores — its confidence is exactly 0. -/
theorem detectPhase_unknown_zero_confidence (events : List ActivityEvent)
    (h : (detectPhase events).phase = .unknown) :
    (detectPhase events).confidence = 0 := by
  by_cases hlen : events.length < 3
  · rw [detectPhase, if_pos hlen]
  · have hspec : specWinnerPhase (scoresOf events) = .unknown := by
      have h1 : (detectPhase events).phase =
          specWinnerPhase (scoresOf events) := by
        rw [detectPhase_full events hlen]
        show (findWinner (scoreEntries (scoresOf events))).1 = _
        rw [findWinner_scoresOf]
      rw [← h1, h]
    have hmax := specWinnerPhase_unknown_max hspec
    have h2 : (findWinner (scoreEntries (scoresOf events))).2 = 0 := by
      rw [findWinner_scoresOf]
      exact hmax
    rw [detectPhase_full events hlen]
    show round2 (min 1 (((findWinner (scoreEntries (scoresOf events))).2 : ℚ) / 5)) = 0
    rw [h2]
    have hmin : min (1 : ℚ) (((0 : Nat) : ℚ) / 5) = 0 := by norm_num
    rw [hmin]
    exact round2_of_mul_hundred 0 0 (by norm_num)

/-- Concrete run of C10: the empty window reports `unknown` and its
confidence is 0. -/
theorem detectPhase_unknown_zero_confidence_witness :
    (detectPhase ([] : List ActivityEvent)).confidence = 0 :=
  detectPhase_unknown_zero_confidence [] (by decide)

/-- C8: a window containing `debug_stop` events but no `debug_start` and no
`breakpoint_change` (whatever switches and edits it also contains) is never
classified as `debugging`. -/
theorem detectPhase_lone_debug_stop (events : List ActivityEvent)
    (hstop : ∃ e ∈ events, e.kind = "debug_stop")
    (hnostart : ∀ e ∈ events, e.kind ≠ "debug_start")
    (hnobp : ∀ e ∈ events, e.kind ≠ "breakpoint_change") :
    (detectPhase events).phase ≠ .debugging := by
  by_cases hlen : events.length < 3
  · rw [detectPhase, if_pos hlen]
    simp
  · rw [detectPhase_full events hlen]
    show (findWinner (scoreEntries (scoresOf events))).1 ≠ _
    rw [findWinner_scoresOf]
    apply specWinnerPhase_ne_debugging
    rw [scoresOf_debugging, filter_kind_eq_nil hnostart, filter_kind_eq_nil hnobp]
    simp

/-- Concrete run of C8: the repo's own test window — a lone stop, a switch
and an edit — is not `debugging`. -/
theorem detectPhase_lone_debug_stop_witness :
    (detectPhase [ActivityEvent.debugStop 0 "Launch" "node",
      ActivityEvent.fileSwitch 1 (some "a.ts") (some "b.ts") (some "ts"),
      ActivityEvent.textChange 2 "b.ts" 1]).phase ≠ .debugging :=
  detectPhase_lone_debug_stop _ (by decide) (by decide) (by decide)

/-- C4 as the spec words it fails on the code: with a `text_change` before
the window's only `file_switch`, the code lists the switch endpoint first,
not the first-seen resource. -/
theorem detectPhase_recentFiles_counterexample :
    (detectPhase [ActivityEvent.textChange 0 "a" 1,
      ActivityEvent.fileSwitch 1 none (some "b") (some "ts"),
      ActivityEvent.fileSave 2 "c" "ts"]).recentFiles ≠
    specRecentFiles [ActivityEvent.textChange 0 "a" 1,
      ActivityEvent.fileSwitch 1 none (some "b") (some "ts"),
      ActivityEvent.fileSave 2 "c" "ts"] := by
  decide

/-- C4 (amended): for windows of at least 3 events, `recentFiles` is the
first-occurrence dedup of the resource ids listing ALL `file_switch`
endpoints (event order, `from` before `to`) ahead of all `text_change`
uris (event order), truncated to 5 — not in global first-occurrence
order. -/
theorem detectPhase_recentFiles_amended (events : List ActivityEvent)
    (h3 : 3 ≤ events.length) :
    (detectPhase events).recentFiles =
      ((switchUris events ++ textUris events).eraseDups).take 5 := by
  rw [detectPhase_full events (by omega)]
  show (uniqueFilesOf events).take 5 = _
  rw [uniqueFilesOf_eraseDups]

/-- Concrete run of the amended C4 on the counterexample window: the
endpoint uri precedes the earlier-edited uri. -/
theorem detectPhase_recentFiles_amended_witness :
    (detectPhase [ActivityEvent.textChange 0 "a" 1,
      ActivityEvent.fileSwitch 1 none (some "b") (some "ts"),
      ActivityEvent.fileSave 2 "c" "ts"]).recentFiles = ["b", "a"] := by
  rw [detectPhase_recentFiles_amended _ (by decide)]
  decide

/-! ### Debounce claims -/

/-- During a burst (every next notification arrives before the pending
timer is due) no event is pushed and the pending timer always carries the
latest notification's count. -/
theorem foldl_debounceStep_burst :
    ∀ (rest : List (Nat × Nat)) (cur : Nat × Nat) (em : List (Nat × Nat)),
      (∀ n ∈ rest, 0 < n.2) →
      List.Chain (fun p q => p.1 ≤ q.1 ∧ q.1 < p.1 + TEXT_CHANGE_DEBOUNCE_MS) cur rest →
      rest.foldl debounceStep (some (cur.1 + TEXT_CHANGE_DEBOUNCE_MS, cur.2), em) =
        (some ((rest.getLastD cur).1 + TEXT_CHANGE_DEBOUNCE_MS, (rest.getLastD cur).2), em) := by
  intro rest
  induction rest with
  | nil => intro cur em _ _; rfl
  | cons q rest ih =>
    intro cur em hpos hchain
    rw [List.chain_cons] at hchain
    obtain ⟨⟨hord, hgap⟩, hrest⟩ := hchain
    have hq : 0 < q.2 := hpos q (by simp)
    have hstep : debounceStep (some (cur.1 + TEXT_CHANGE_DEBOUNCE_MS, cur.2), em) q =
        (some (q.1 + TEXT_CHANGE_DEBOUNCE_MS, q.2), em) := by
      rw [debounceStep, if_neg (by omega)]
      show (if cur.1 + TEXT_CHANGE_DEBOUNCE_MS ≤ q.1 then _ else _) = _
      rw [if_neg (by omega)]
    rw [List.foldl_cons, hstep, ih q em (fun n hn => hpos n (by simp [hn])) hrest,
      List.getLastD_cons]

/-- C1 as the spec words it fails on the code: two change notifications of
2 and 3 batches 1000 ms apart are coalesced into one event whose
`changeCount` is NOT the burst total `2 + 3`. -/
theorem debounce_total_counterexample :
    (debounceEmitted [(0, 2), (1000, 3)]).map Prod.snd ≠ [2 + 3] := by
  decide

/-- C1 (amended): a debounced burst to one resource — consecutive
notifications in time order, each arriving strictly within 2000 ms of the
previous one, each carrying at least one change batch — produces exactly
one `text_change` event at quiescence, timestamped 2000 ms after the final
notification, whose `changeCount` is the final notification's batch count,
not the total over the burst. -/
theorem debounce_burst_final_count (first : Nat × Nat) (rest : List (Nat × Nat))
    (hpos : ∀ n ∈ first :: rest, 0 < n.2)
    (hchain : List.Chain (fun p q => p.1 ≤ q.1 ∧ q.1 < p.1 + TEXT_CHANGE_DEBOUNCE_MS)
      first rest) :
    debounceEmitted (first :: rest) =
      [((rest.getLastD first).1 + TEXT_CHANGE_DEBOUNCE_MS, (rest.getLastD first).2)] := by
  have hfirst : 0 < first.2 := hpos first (by simp)
  have hstep0 : debounceStep (none, []) first =
      (some (first.1 + TEXT_CHANGE_DEBOUNCE_MS, first.2), []) := by
    rw [debounceStep, if_neg (by omega)]
  rw [debounceEmitted, List.foldl_cons, hstep0,
    foldl_debounceStep_burst rest first [] (fun n hn => hpos n (by simp [hn])) hchain]
  rfl

/-- Concrete run of the amended C1: the burst of the counterexample emits
one event at time 3000 carrying the final notification's count 3. -/
theorem debounce_burst_final_count_witness :
    debounceEmitted [(0, 2), (1000, 3)] = [(3000, 3)] := by
  rw [debounce_burst_final_count (0, 2) [(1000, 3)] (by decide)
    (List.Chain.cons (by decide) List.Chain.nil)]
  rfl

/-! ### HTTP delivery claim -/

/-- C9: `postJson` resolves exactly when the response status is 2xx; any
non-2xx response rejects with an error carrying the status code and the
response body; a transport error also rejects. -/
theorem postJson_status (outcome : HttpOutcome) :
    (postJson outcome = Except.ok () ↔
      ∃ c b, outcome = .response c b ∧ 200 ≤ c ∧ c < 300) ∧
    (∀ c b, outcome = .response c b → ¬(200 ≤ c ∧ c < 300) →
      postJson outcome = Except.error ("Status " ++ toString c ++ " body: " ++ b)) ∧
    (∀ m, outcome = .transportError m → postJson outcome = Except.error m) := by
  cases outcome with
  | response c b =>
    refine ⟨⟨?_, ?_⟩, ?_, ?_⟩
    · intro h
      refine ⟨c, b, rfl, ?_⟩
      rw [postJson] at h
      split_ifs at h with hc
      · exact ⟨hc.2.1, hc.2.2⟩
    · rintro ⟨c2, b2, heq, h200, h300⟩
      injection heq with hc hb
      subst hc
      rw [postJson, if_pos ⟨by omega, h200, h300⟩]
    · intro c2 b2 heq hno
      injection heq with hc hb
      subst hc
      subst hb
      rw [postJson, if_neg (by omega)]
    · intro m heq
      exact absurd heq (by simp)
  | transportError m =>
    refine ⟨⟨?_, ?_⟩, ?_, ?_⟩
    · intro h
      rw [postJson] at h
      exact absurd h (by simp)
    · rintro ⟨c, b, heq, -⟩
      exact absurd heq (by simp)
    · intro c b heq
      exact absurd heq (by simp)
    · intro m2 heq
      injection heq with hm
      subst hm
      rfl

/-- Concrete runs of C9: a 404 rejects carrying status and body, a 201
resolves. -/
theorem postJson_status_witness :
    postJson (.response 404 "nope") = Except.error "Status 404 body: nope" ∧
    postJson (.response 201 "") = Except.ok () := by
  constructor
  · exact (postJson_status (.response 404 "nope")).2.1 404 "nope" rfl (by omega)
  · exact (postJson_status (.response 201 "")).1.mpr ⟨201, "", rfl, by omega, by omega⟩

/-! ### Bundle round-trip claim -/

/-- Decoding an array of encoded values recovers them all, given a
pointwise round trip. -/
theorem decodeList_map {α : Type} (dec : Json → Option α) (enc : α → Json)
    (h : ∀ x, dec (enc x) = some x) :
    ∀ xs : List α, decodeList dec (Json.arr (xs.map enc)) = some xs := by
  intro xs
  induction xs with
  | nil => rfl
  | cons x xs ih =>
    simp only [decodeList] at ih ⊢
    rw [List.map_cons, List.mapM_cons, h x, ih]
    rfl

theorem decodeTabInfo_encode (t : TabInfo) : decodeTabInfo (encodeTabInfo t) = some t := rfl

theorem decodeEditorState_encode (s : EditorState) :
    decodeEditorState (encodeEditorState s) = some s := rfl

theorem decodeSelectionInfo_encode (s : SelectionInfo) :
    decodeSelectionInfo (encodeSelectionInfo s) = some s := rfl

theorem decodeDiagnosticInfo_encode (d : DiagnosticInfo) :
    decodeDiagnosticInfo (encodeDiagnosticInfo d) = some d := by
  cases d with | mk u sv m l sr => cases sv <;> rfl

theorem decodeBreakpointInfo_encode (b : BreakpointInfo) :
    decodeBreakpointInfo (encodeBreakpointInfo b) = some b := by
  cases b with | mk u l en c => cases c <;> rfl

theorem decodeGitStatus_encode (g : GitStatus) :
    decodeGitStatus (encodeGitStatus g) = some g := by
  simp [decodeGitStatus, encodeGitStatus, Json.getField, List.lookup, Json.ofInt,
    decodeList_map Json.asStr Json.str (fun x => rfl), Json.asStr, Json.asInt,
    Rat.den_intCast, Rat.num_intCast]

/-- A JSON `null` optional field decodes to an absent value. -/
theorem decodeOrNull_of_null {α : Type} (dec : Json → Option α) :
    decodeOrNull dec Json.null = some none := rfl

/-- A `null`-or-editor field round-trips. -/
theorem decodeOrNull_editor (es : EditorState) :
    decodeOrNull decodeEditorState (encodeEditorState es) = some (some es) := rfl

/-- A `null`-or-git-status field round-trips. -/
theorem decodeOrNull_git (g : GitStatus) :
    decodeOrNull decodeGitStatus (encodeGitStatus g) = some (some g) := by
  show (decodeGitStatus (encodeGitStatus g)).map some = some (some g)
  rw [decodeGitStatus_encode]
  rfl

theorem decodeEvent_encodeEvent (e : ActivityEvent) :
    decodeEvent (encodeEvent e) = some e := by
  cases e with
  | fileSwitch ts f t lang => cases f <;> cases t <;> cases lang <;> rfl
  | terminalCommandEnd ts cl tn ec => cases ec <;> rfl
  | diagnosticChange ts uris te tw =>
    simp [decodeEvent, encodeEvent, Json.getField, List.lookup, Json.asStr, Json.asInt,
      Json.ofInt, Rat.den_intCast, Rat.num_intCast,
      decodeList_map Json.asStr Json.str (fun x => rfl)]
  | fileSave ts u l => rfl
  | debugStart ts n ty => rfl
  | debugStop ts n ty => rfl
  | terminalCommandStart ts cl tn => rfl
  | textChange ts u cc => rfl
  | breakpointChange ts ad rm ch => rfl

theorem decodePhaseAssessment_encode (p : PhaseAssessment) :
    decodePhaseAssessment (encodePhaseAssessment p) = some p := by
  cases p with | mk ph conf r files =>
  cases ph <;>
    simp [decodePhaseAssessment, encodePhaseAssessment, encodePhase, decodePhase,
      Json.getField, List.lookup, Json.asStr, Json.asNum,
      decodeList_map Json.asStr Json.str (fun x => rfl)]

theorem decodePolledState_encode (s : PolledState) :
    decodePolledState (encodePolledState s) = some s := by
  cases s with | mk ae tabs dirty diags bps git ws =>
  cases ae <;> cases git <;>
    simp [decodePolledState, encodePolledState, Json.getField, List.lookup,
      decodeOrNull_editor, decodeOrNull_git, decodeOrNull_of_null,
      decodeList_map decodeTabInfo encodeTabInfo decodeTabInfo_encode,
      decodeList_map Json.asStr Json.str (fun x => rfl),
      decodeList_map decodeDiagnosticInfo encodeDiagnosticInfo decodeDiagnosticInfo_encode,
      decodeList_map decodeBreakpointInfo encodeBreakpointInfo decodeBreakpointInfo_encode]

/-- C7: serializing a version-1 `ContextBundle` to its wire JSON and
parsing it back yields a structurally identical bundle — field for field,
including the `null`-valued and omitted optional fields (`selection`, a
`terminal_command_end` event's `exitCode`, a breakpoint's `condition`). -/
theorem contextBundle_roundtrip (b : ContextBundle) (hv : b.version = 1) :
    decodeContextBundle (encodeContextBundle b) = some b := by
  cases b with | mk v ts ev st ph sel =>
  have hv1 : v = 1 := hv
  subst hv1
  cases sel <;>
    simp [decodeContextBundle, encodeContextBundle, Json.getField, List.lookup,
      Json.asStr, Json.asInt, Json.ofInt, Rat.den_intCast, Rat.num_intCast,
      decodeList_map decodeEvent encodeEvent decodeEvent_encodeEvent,
      decodePolledState_encode, decodePhaseAssessment_encode, decodeSelectionInfo_encode]

/-- Concrete run of C7 on a bundle exercising the optional fields. -/
theorem contextBundle_roundtrip_witness :
    decodeContextBundle (encodeContextBundle exampleBundle) = some exampleBundle :=
  contextBundle_roundtrip exampleBundle rfl

end CtxBridge
